import Mathlib

/-!
Shallow embedding of the looplab/fsm transition engine (src/fsm.go,
src/fsm_ext.go, src/callback.go) in Lean 4.

States and events are Go strings, modelled as String. Go contexts
(context.Context) are modelled as an inductive tree mirroring the only
context constructions the engine uses: context.Background, context.WithValue,
context.WithCancel and the uncancel wrapper of fsm_ext.go. Cancellation of a
WithCancel node is a boolean flag on that node; invoking a cancel function is
modelled as flipping the flag of the outermost WithCancel node.

Callbacks (Go func(context.Context, *Event)) are modelled as pure functions
from the callback-visible event record to an updated record; this captures
everything a callback can do to the dispatch protocol through its *Event
pointer: set Err, call Cancel (set the canceled flag, optionally Err) and
call Async (set the async flag).

The dispatch helpers additionally return a trace of the callback slots they
invoked, in invocation order, and the commit point of a transition; this is
pure instrumentation used to state ordering properties and does not alter
the translated control flow.
-/

/-- Error values observable through the engine: the context cancellation
error (context.Canceled) and arbitrary user errors set by callbacks. -/
inductive Err where
  | ctxCanceled : Err
  | user (msg : String) : Err
deriving DecidableEq, Repr

/-- Go contexts as used by the engine: Background, WithValue, WithCancel
(with its cancellation flag) and the uncancel wrapper from fsm_ext.go. -/
inductive Ctx where
  | background : Ctx
  | withValue (parent : Ctx) (key val : String) : Ctx
  | withCancel (parent : Ctx) (canceled : Bool) : Ctx
  | uncancel (parent : Ctx) : Ctx
deriving DecidableEq, Repr

/-- ctx.Err(): a WithCancel context reports context.Canceled once its cancel
function has run, otherwise it reports its parent's error; the uncancel
wrapper reports nil unconditionally (fsm_ext.go, method Err of uncancel). -/
def Ctx.err : Ctx → Option Err
  | .background => none
  | .withValue parent _ _ => parent.err
  | .withCancel parent canceled => if canceled then some .ctxCanceled else parent.err
  | .uncancel _ => none

/-- Whether ctx.Done() is closed: a WithCancel context is done once cancelled
or once its parent is done; the uncancel wrapper returns a nil channel and so
is never done (fsm_ext.go, method Done of uncancel). -/
def Ctx.done : Ctx → Bool
  | .background => false
  | .withValue parent _ _ => parent.done
  | .withCancel parent canceled => canceled || parent.done
  | .uncancel _ => false

/-- ctx.Value(key): WithValue answers its own key, everything else delegates
to the parent (the uncancel wrapper embeds the parent context, so value
lookups fall through to it). -/
def Ctx.value : Ctx → String → Option String
  | .background, _ => none
  | .withValue parent k v, key => if key = k then some v else parent.value key
  | .withCancel parent _, key => parent.value key
  | .uncancel parent, key => parent.value key

/-- Invoking the cancel function paired with the outermost WithCancel node:
sets that node's cancellation flag. On a context whose outermost node is not
a WithCancel there is no paired cancel function and this is the identity. -/
def Ctx.cancelTop : Ctx → Ctx
  | .withCancel parent _ => .withCancel parent true
  | c => c

/-- fsm_ext.go uncancelContext: wraps the parent in the uncancel view (which
ignores the parent's cancellation but keeps its values) and derives a fresh
cancellable context from that view. The paired cancel function is modelled
by Ctx.cancelTop. -/
def uncancelContext (ctx : Ctx) : Ctx :=
  .withCancel (.uncancel ctx) false

/-- The callback-visible event record (the *Event passed to callbacks):
event name, source, destination, the optional error, and the canceled and
async flags. The FSM back-reference, the opaque args slice and the internal
cancelFunc field play no role in the dispatch protocol modelled here. -/
structure EventObj where
  event : String
  src : String
  dst : String
  err : Option Err
  canceled : Bool
  async : Bool
deriving DecidableEq, Repr

/-- Event.Cancel (event.go / callback.go): sets the canceled flag and, when
an error argument is supplied, overwrites Err. -/
def EventObj.cancel (e : EventObj) (err : Option Err) : EventObj :=
  { e with canceled := true, err := match err with | some x => some x | none => e.err }

/-- Event.Async (event.go / callback.go): sets the async flag. -/
def EventObj.markAsync (e : EventObj) : EventObj :=
  { e with async := true }

/-- A callback as the engine sees it: a function of the handed context and
the shared event record, returning the mutated record. -/
def Callback : Type := Ctx → EventObj → EventObj

/-- The four callback situations of fsm.go (callbackBeforeEvent,
callbackLeaveState, callbackEnterState, callbackAfterEvent); callbackNone
never reaches the callback map and is represented by absence. -/
inductive CallbackKind where
  | beforeEvent : CallbackKind
  | leaveState : CallbackKind
  | enterState : CallbackKind
  | afterEvent : CallbackKind
deriving DecidableEq, Repr

/-- cKey of fsm.go: a callback map key, target name (or empty for the
generic all-events / all-states slot) plus the callback kind. -/
structure CKey where
  target : String
  callbackType : CallbackKind
deriving DecidableEq, Repr

/-- eKey of fsm.go: a transition map key, event name plus source state. -/
structure EKey where
  event : String
  src : String
deriving DecidableEq, Repr

/-- EventDesc of fsm.go: one event with its legal source states and the
destination state. -/
structure EventDesc where
  name : String
  src : List String
  dst : String

/-- Go map lookup on an association list (later inserts overwrite earlier
ones, see mapInsert). -/
def lookupAssoc {α β : Type} [DecidableEq α] : List (α × β) → α → Option β
  | [], _ => none
  | (k, v) :: rest, key => if key = k then some v else lookupAssoc rest key

/-- Go map insert on an association list: replaces the binding of an
existing key, otherwise prepends. -/
def mapInsert {α β : Type} [DecidableEq α] (m : List (α × β)) (k : α) (v : β) :
    List (α × β) :=
  match m with
  | [] => [(k, v)]
  | (k', v') :: rest => if k = k' then (k, v) :: rest else (k', v') :: mapInsert rest k v

/-- The pending (staged) transition closure of fsm.go, represented by the
data the closure captures: the destination, the shared event record as of
staging, the context the closure will consult, and whether it was staged for
the asynchronous completion path. -/
structure Pending where
  dst : String
  e : EventObj
  ctx : Ctx
  async : Bool

/-- The FSM struct of fsm.go (locks and metadata omitted: the claims treated
here are single-threaded runs of the dispatch protocol, and metadata never
feeds into it). -/
structure FSM where
  current : String
  transitions : List (EKey × String)
  callbacks : List (CKey × Callback)
  transition : Option Pending
  processNoTransitionStates : Bool

/-- Current() of fsm.go: the current state. -/
def FSM.Current (f : FSM) : String := f.current

/-- Is() of fsm.go. -/
def FSM.Is (f : FSM) (state : String) : Bool := state = f.current

/-- Can() of fsm.go: a transition entry exists for the event in the current
state and no transition is pending. -/
def FSM.Can (f : FSM) (event : String) : Bool :=
  (lookupAssoc f.transitions ⟨event, f.current⟩).isSome && f.transition.isNone

/-- SetState() of fsm.go: force-set the current state, no callbacks. -/
def FSM.SetState (f : FSM) (state : String) : FSM := { f with current := state }

/-- SetProcessNoTransitionStates() of fsm.go: enable the processing of
events whose destination equals the current state as full transitions. -/
def FSM.SetProcessNoTransitionStates (f : FSM) (process : Bool) : FSM :=
  { f with processNoTransitionStates := process }

/-- Items of the instrumentation trace: a callback slot invocation, or the
commit point where the staged closure writes the new current state. -/
inductive TraceItem where
  | cb (key : CKey) : TraceItem
  | commit (dst : String) : TraceItem
deriving DecidableEq, Repr

/-- The error values returned by Event() and Transition() (errors.go of the
repository; AsyncError carries the decoupled context assigned by Event, and
plain wraps a bare callback-set error returned as e.Err). -/
inductive GoError where
  | inTransitionError (event : String) : GoError
  | invalidEventError (event state : String) : GoError
  | unknownEventError (event : String) : GoError
  | notInTransitionError : GoError
  | noTransitionError (err : Option Err) : GoError
  | canceledError (err : Option Err) : GoError
  | asyncError (err : Option Err) (ctx : Option Ctx) : GoError
  | internalError : GoError
  | plain (e : Err) : GoError
deriving DecidableEq, Repr

/-- Outcome of the leave-state callback phase (fsm.go leaveStateCallbacks):
proceed, canceled with the current callback error, or async with it. -/
inductive LeaveResult where
  | ok : LeaveResult
  | canceled (err : Option Err) : LeaveResult
  | asyncStarted (err : Option Err) : LeaveResult
deriving DecidableEq, Repr

/-- beforeEventCallbacks of fsm.go: run the named before callback, return
CanceledError (modelled as the some case) if the callback cancelled, then
the same for the generic before callback. Also returns the shared event
record after the invoked callbacks and the trace of invoked slots. -/
def beforeEventCallbacks (f : FSM) (ctx : Ctx) (e : EventObj) :
    EventObj × Option (Option Err) × List TraceItem :=
  match lookupAssoc f.callbacks ⟨e.event, .beforeEvent⟩ with
  | some fn =>
    let e1 := fn ctx e
    if e1.canceled then (e1, some e1.err, [.cb ⟨e.event, .beforeEvent⟩])
    else
      match lookupAssoc f.callbacks ⟨"", .beforeEvent⟩ with
      | some fn2 =>
        let e2 := fn2 ctx e1
        if e2.canceled then
          (e2, some e2.err, [.cb ⟨e.event, .beforeEvent⟩, .cb ⟨"", .beforeEvent⟩])
        else (e2, none, [.cb ⟨e.event, .beforeEvent⟩, .cb ⟨"", .beforeEvent⟩])
      | none => (e1, none, [.cb ⟨e.event, .beforeEvent⟩])
  | none =>
    match lookupAssoc f.callbacks ⟨"", .beforeEvent⟩ with
    | some fn2 =>
      let e2 := fn2 ctx e
      if e2.canceled then (e2, some e2.err, [.cb ⟨"", .beforeEvent⟩])
      else (e2, none, [.cb ⟨"", .beforeEvent⟩])
    | none => (e, none, [])

/-- leaveStateCallbacks of fsm.go: run the callback named after the current
state, check canceled then async after it, then the same for the generic
leave callback. -/
def leaveStateCallbacks (f : FSM) (ctx : Ctx) (e : EventObj) :
    EventObj × LeaveResult × List TraceItem :=
  match lookupAssoc f.callbacks ⟨f.current, .leaveState⟩ with
  | some fn =>
    let e1 := fn ctx e
    if e1.canceled then (e1, .canceled e1.err, [.cb ⟨f.current, .leaveState⟩])
    else if e1.async then (e1, .asyncStarted e1.err, [.cb ⟨f.current, .leaveState⟩])
    else
      match lookupAssoc f.callbacks ⟨"", .leaveState⟩ with
      | some fn2 =>
        let e2 := fn2 ctx e1
        if e2.canceled then
          (e2, .canceled e2.err, [.cb ⟨f.current, .leaveState⟩, .cb ⟨"", .leaveState⟩])
        else if e2.async then
          (e2, .asyncStarted e2.err, [.cb ⟨f.current, .leaveState⟩, .cb ⟨"", .leaveState⟩])
        else (e2, .ok, [.cb ⟨f.current, .leaveState⟩, .cb ⟨"", .leaveState⟩])
      | none => (e1, .ok, [.cb ⟨f.current, .leaveState⟩])
  | none =>
    match lookupAssoc f.callbacks ⟨"", .leaveState⟩ with
    | some fn2 =>
      let e2 := fn2 ctx e
      if e2.canceled then (e2, .canceled e2.err, [.cb ⟨"", .leaveState⟩])
      else if e2.async then (e2, .asyncStarted e2.err, [.cb ⟨"", .leaveState⟩])
      else (e2, .ok, [.cb ⟨"", .leaveState⟩])
    | none => (e, .ok, [])

/-- enterStateCallbacks of fsm.go: run the callback named after the (new)
current state, then the generic enter callback; no outcome to report. -/
def enterStateCallbacks (f : FSM) (ctx : Ctx) (e : EventObj) :
    EventObj × List TraceItem :=
  match lookupAssoc f.callbacks ⟨f.current, .enterState⟩ with
  | some fn =>
    let e1 := fn ctx e
    match lookupAssoc f.callbacks ⟨"", .enterState⟩ with
    | some fn2 => (fn2 ctx e1, [.cb ⟨f.current, .enterState⟩, .cb ⟨"", .enterState⟩])
    | none => (e1, [.cb ⟨f.current, .enterState⟩])
  | none =>
    match lookupAssoc f.callbacks ⟨"", .enterState⟩ with
    | some fn2 => (fn2 ctx e, [.cb ⟨"", .enterState⟩])
    | none => (e, [])

/-- afterEventCallbacks of fsm.go: run the callback named after the event,
then the generic after callback; no outcome to report. -/
def afterEventCallbacks (f : FSM) (ctx : Ctx) (e : EventObj) :
    EventObj × List TraceItem :=
  match lookupAssoc f.callbacks ⟨e.event, .afterEvent⟩ with
  | some fn =>
    let e1 := fn ctx e
    match lookupAssoc f.callbacks ⟨"", .afterEvent⟩ with
    | some fn2 => (fn2 ctx e1, [.cb ⟨e.event, .afterEvent⟩, .cb ⟨"", .afterEvent⟩])
    | none => (e1, [.cb ⟨e.event, .afterEvent⟩])
  | none =>
    match lookupAssoc f.callbacks ⟨"", .afterEvent⟩ with
    | some fn2 => (fn2 ctx e, [.cb ⟨"", .afterEvent⟩])
    | none => (e, [])

/-- doTransition of fsm.go together with transitionerStruct.transition and
the body of the staged closure built by Event (transitionFunc): with no
pending transition, NotInTransitionError; if the closure's captured context
is cancelled, record the context error in the shared event record and return
without committing (the pending marker is left in place, as in the source);
otherwise commit the new current state, clear the marker, and run the enter
and after callback phases. Besides the updated machine and the returned
error it exposes the shared event record after the run and the trace. -/
def doTransition (f : FSM) : FSM × Option GoError × Option EventObj × List TraceItem :=
  match f.transition with
  | none => (f, some .notInTransitionError, none, [])
  | some p =>
    if (p.ctx.err).isSome then
      let e1 := if p.e.err = none then { p.e with err := p.ctx.err } else p.e
      ({ f with transition := some { p with e := e1 } }, none, some e1, [])
    else
      let f1 : FSM := { f with current := p.dst, transition := none }
      match enterStateCallbacks f1 p.ctx p.e with
      | (e1, trE) =>
        match afterEventCallbacks f1 p.ctx e1 with
        | (e2, trA) => (f1, none, some e2, .commit p.dst :: (trE ++ trA))

/-- Transition() of fsm.go: completes a previously started (asynchronous)
state change by running the staged closure through doTransition. -/
def FSM.Transition (f : FSM) : FSM × Option GoError × List TraceItem :=
  match doTransition f with
  | (f1, r, _, tr) => (f1, r, tr)

/-- Invoking the CancelTransition function carried by an AsyncError
(fsm.go, the asyncError branch of Event): cancels the decoupled context
captured by the pending transition closure. -/
def cancelPendingTransition (f : FSM) : FSM :=
  match f.transition with
  | some p => { f with transition := some { p with ctx := p.ctx.cancelTop } }
  | none => f

/-- Event() of fsm.go: the dispatch protocol. Returns the updated machine,
the returned error (none for a nil return) and the instrumentation trace.
Control flow is translated branch for branch from the source: pending check,
table lookup with the fallback scan distinguishing InvalidEventError from
UnknownEventError, the derived cancellable context, before callbacks, the
no-transition branch, staging of the transition closure, leave callbacks
with their cancel and async outcomes (the async outcome rebinds the closure
to the decoupled uncancelContext and returns it in the AsyncError), and the
synchronous completion through doTransition. -/
def FSM.Event (f : FSM) (ctx0 : Ctx) (event : String) :
    FSM × Option GoError × List TraceItem :=
  if f.transition.isSome then (f, some (.inTransitionError event), [])
  else
    match lookupAssoc f.transitions ⟨event, f.current⟩ with
    | none =>
      if f.transitions.any (fun p => p.1.event = event) then
        (f, some (.invalidEventError event f.current), [])
      else (f, some (.unknownEventError event), [])
    | some dst =>
      let ctx := Ctx.withCancel ctx0 false
      let e0 : EventObj := ⟨event, f.current, dst, none, false, false⟩
      match beforeEventCallbacks f ctx e0 with
      | (_, some cerr, trB) => (f, some (.canceledError cerr), trB)
      | (e1, none, trB) =>
        if f.current = dst ∧ ¬f.processNoTransitionStates then
          match afterEventCallbacks f ctx e1 with
          | (e2, trA) => (f, some (.noTransitionError e2.err), trB ++ trA)
        else
          match leaveStateCallbacks { f with transition := some ⟨dst, e1, ctx, false⟩ } ctx e1 with
          | (_, .canceled cerr, trL) =>
            ({ f with transition := none }, some (.canceledError cerr), trB ++ trL)
          | (e2, .asyncStarted aerr, trL) =>
            let ctx1 := uncancelContext ctx
            ({ f with transition := some ⟨dst, e2, ctx1, true⟩ },
              some (.asyncError aerr (some ctx1)), trB ++ trL)
          | (e2, .ok, trL) =>
            match doTransition { f with transition := some ⟨dst, e2, ctx, false⟩ } with
            | (f1, some _, _, trT) => (f1, some .internalError, trB ++ trL ++ trT)
            | (f1, none, eF, trT) =>
              (f1, (eF.getD e2).err.map .plain, trB ++ trL ++ trT)

namespace V2

/-- CallbackType of callback.go, a string type; the eight constants follow. -/
def CallbackType : Type := String

/-- Constant BeforeEvent of callback.go. -/
def BeforeEvent : String := "before_event"

/-- Constant BeforeAllEvents of callback.go. -/
def BeforeAllEvents : String := "before_all_events"

/-- Constant AfterEvent of callback.go. -/
def AfterEvent : String := "after_event"

/-- Constant AfterAllEvents of callback.go. -/
def AfterAllEvents : String := "after_all_events"

/-- Constant EnterState of callback.go. -/
def EnterState : String := "enter_state"

/-- Constant EnterAllStates of callback.go. -/
def EnterAllStates : String := "enter_all_states"

/-- Constant LeaveState of callback.go. -/
def LeaveState : String := "leave_state"

/-- Constant LeaveAllStates of callback.go. -/
def LeaveAllStates : String := "leave_all_states"

/-- The Callback binding struct of callback.go at E = S = String (the
generic parameters are constraints.Ordered; their zero value is the empty
string). The handler function F plays no role in validation and is
omitted. -/
structure Callback where
  when : String
  event : String
  state : String
deriving DecidableEq, Repr

/-- Callback.validate of callback.go, translated switch case for switch
case; returns the error message, or none when the binding is well formed. -/
def Callback.validate (c : Callback) : Option String :=
  if c.when = BeforeEvent ∨ c.when = AfterEvent then
    if c.event = "" then some (c.when ++ " given but no event")
    else if c.state ≠ "" then some (c.when ++ " given but state " ++ c.state ++ " specified")
    else none
  else if c.when = BeforeAllEvents ∨ c.when = AfterAllEvents then
    if c.event ≠ "" then some (c.when ++ " given with event " ++ c.event)
    else if c.state ≠ "" then some (c.when ++ " given with state " ++ c.state)
    else none
  else if c.when = EnterState ∨ c.when = LeaveState then
    if c.state = "" then some (c.when ++ " given but no state")
    else if c.event ≠ "" then some (c.when ++ " given but event " ++ c.event ++ " specified")
    else none
  else if c.when = EnterAllStates ∨ c.when = LeaveAllStates then
    if c.state ≠ "" then some (c.when ++ " given with state " ++ c.state)
    else if c.event ≠ "" then some (c.when ++ " given with event " ++ c.event)
    else none
  else some "invalid callback"

/-- Callbacks.validate of callback.go: validate each binding in order and
fail on the first invalid one. -/
def callbacksValidate : List Callback → Option String
  | [] => none
  | c :: rest =>
    match c.validate with
    | some msg => some msg
    | none => callbacksValidate rest

/-- A machine of the generic API, as far as construction is concerned. -/
structure Machine where
  initial : String
  transitions : List EventDesc
  bindings : List Callback

/-- Modelled from the spec: the generic constructor New(initialState,
transitions, callbacks) is not among the sources (only its callback
validation, callback.go Callback.validate with its tests, is); per spec
section 6 construction fails with a construction error if any callback
binding's target/category combination is malformed, which is exactly what
validating every binding through Callback.validate checks, so New is
modelled as running callbacksValidate and failing on its first reported
error. -/
def New (initial : String) (transitions : List EventDesc) (callbacks : List Callback) :
    Except String Machine :=
  match callbacksValidate callbacks with
  | some msg => .error msg
  | none => .ok ⟨initial, transitions, callbacks⟩

end V2

/-- A callback binding whose target/category combination is malformed in one
of the three ways named by the spec: a state target on an event-phase
binding, an event target on a state-phase binding, or any target on an
all-events/all-states category. -/
def malformedBinding (c : V2.Callback) : Prop :=
  ((c.when = V2.BeforeEvent ∨ c.when = V2.AfterEvent) ∧ c.state ≠ "") ∨
  ((c.when = V2.EnterState ∨ c.when = V2.LeaveState) ∧ c.event ≠ "") ∨
  ((c.when = V2.BeforeAllEvents ∨ c.when = V2.AfterAllEvents ∨
    c.when = V2.EnterAllStates ∨ c.when = V2.LeaveAllStates) ∧
    (c.event ≠ "" ∨ c.state ≠ ""))

/-- The trace a single callback phase produces when it runs to completion:
the specific slot if registered, then the generic slot if registered. -/
def specGen (f : FSM) (k1 k2 : CKey) : List TraceItem :=
  (if (lookupAssoc f.callbacks k1).isSome then [TraceItem.cb k1] else []) ++
  (if (lookupAssoc f.callbacks k2).isSome then [TraceItem.cb k2] else [])

/-- Staging or clearing the pending transition does not change which
callbacks the leave phase sees: it reads only the current state and the
callback map. -/
theorem leaveStateCallbacks_transition_irrel (f : FSM) (p : Option Pending)
    (ctx : Ctx) (e : EventObj) :
    leaveStateCallbacks { f with transition := p } ctx e = leaveStateCallbacks f ctx e := rfl

/-- C9: for every parent context, the decoupled context built by
uncancelContext reports not-done and a nil error regardless of the parent's
cancellation state, still answers value lookups from the parent, and its
paired cancel function (Ctx.cancelTop) cancels only the decoupled context:
afterwards the decoupled context is done with the Canceled error, its value
lookups still reach the parent, and the wrapped parent inside it is the
original parent context, untouched. -/
theorem uncancelContext_decouples (p : Ctx) :
    (uncancelContext p).err = none ∧
    (uncancelContext p).done = false ∧
    (∀ k, (uncancelContext p).value k = p.value k) ∧
    (uncancelContext p).cancelTop = Ctx.withCancel (Ctx.uncancel p) true ∧
    ((uncancelContext p).cancelTop).err = some Err.ctxCanceled ∧
    ((uncancelContext p).cancelTop).done = true ∧
    (∀ k, ((uncancelContext p).cancelTop).value k = p.value k) := by
  refine ⟨rfl, rfl, fun k => rfl, rfl, rfl, rfl, fun k => rfl⟩

/-- C3: with no pending transition, an Event() call whose (event, current)
pair misses the transition table returns InvalidEventError when the event
appears in the table under some other source state and UnknownEventError
when it appears nowhere; in both cases the machine (and so Current()) is
unchanged and no callback runs (the trace is empty). -/
theorem Event_miss_invalid_or_unknown (f : FSM) (ctx0 : Ctx) (ev : String)
    (hp : f.transition = none)
    (hm : lookupAssoc f.transitions ⟨ev, f.current⟩ = none) :
    (f.transitions.any (fun q => q.1.event = ev) = true →
      f.Event ctx0 ev = (f, some (GoError.invalidEventError ev f.current), [])) ∧
    (f.transitions.any (fun q => q.1.event = ev) = false →
      f.Event ctx0 ev = (f, some (GoError.unknownEventError ev), [])) := by
  constructor
  · intro h
    simp [FSM.Event, hp, hm, h]
  · intro h
    simp [FSM.Event, hp, hm, h]

/-- A two-state machine with transitions run: start to end and reset: end to
start, and no callbacks (the concrete scenario of spec section 8). -/
def runResetFSM : FSM :=
  { current := "start"
    transitions := [(⟨"run", "start"⟩, "end"), (⟨"reset", "end"⟩, "start")]
    callbacks := []
    transition := none
    processNoTransitionStates := false }

/-- The same machine with a leave callback on the start state that marks the
transition asynchronous (the leave underscore start callback calling Async
in the tests). -/
def asyncLeaveFSM : FSM :=
  { runResetFSM with
    callbacks := [(⟨"start", CallbackKind.leaveState⟩, fun _ e => e.markAsync)] }

/-- Witness for C3 at the concrete machine: from state start the event reset
is only legal from state end, so it is invalid here, and a never-declared
event is unknown; both leave the machine untouched. -/
theorem Event_miss_invalid_or_unknown_witness :
    runResetFSM.transition = none ∧
    lookupAssoc runResetFSM.transitions ⟨"reset", runResetFSM.current⟩ = none ∧
    lookupAssoc runResetFSM.transitions ⟨"nope", runResetFSM.current⟩ = none ∧
    runResetFSM.Event Ctx.background "reset" =
      (runResetFSM, some (GoError.invalidEventError "reset" "start"), []) ∧
    runResetFSM.Event Ctx.background "nope" =
      (runResetFSM, some (GoError.unknownEventError "nope"), []) := by
  refine ⟨rfl, rfl, rfl, ?_, ?_⟩
  · exact (Event_miss_invalid_or_unknown runResetFSM Ctx.background "reset" rfl rfl).1 (by decide)
  · exact (Event_miss_invalid_or_unknown runResetFSM Ctx.background "nope" rfl rfl).2 (by decide)

/-- C4 counterexample: in the test scenario of the repository (leave of the
start state marks the transition async, the AsyncError cancel function is
invoked before completion), the subsequent Transition() call does return nil
but the commit does not proceed: Current() stays start and never becomes the
staged destination end, contradicting the claim. -/
theorem Transition_after_cancel_counterexample :
    ((cancelPendingTransition (asyncLeaveFSM.Event Ctx.background "run").1).Transition).2.1 = none ∧
    ((cancelPendingTransition (asyncLeaveFSM.Event Ctx.background "run").1).Transition).1.Current = "start" ∧
    ((cancelPendingTransition (asyncLeaveFSM.Event Ctx.background "run").1).Transition).1.Current ≠ "end" := by
  refine ⟨rfl, rfl, by decide⟩

/-- C4 amended: with a pending transition whose captured (decoupled) context
has been cancelled, Transition() still returns nil, but the commit is
skipped: the staged closure merely records the context error in the shared
event record, Current() remains the source state and the pending marker
remains set. -/
theorem Transition_after_cancel (f : FSM) (p : Pending)
    (hp : f.transition = some p) (hc : (p.ctx.err).isSome = true) :
    f.Transition =
      ({ f with transition := some { p with
          e := if p.e.err = none then { p.e with err := p.ctx.err } else p.e } }, none, []) ∧
    (f.Transition).1.Current = f.Current ∧
    (f.Transition).1.transition.isSome = true := by
  refine ⟨by simp [FSM.Transition, doTransition, hp, hc], ?_, ?_⟩ <;>
    simp [FSM.Transition, doTransition, hp, hc, FSM.Current]

/-- The machine of the C4 scenario frozen right after the cancel function of
the AsyncError has been invoked: the pending transition to end holds the
cancelled decoupled context. -/
def canceledPendingFSM : FSM :=
  cancelPendingTransition (asyncLeaveFSM.Event Ctx.background "run").1

/-- Witness for the amended C4 at the concrete scenario machine. -/
theorem Transition_after_cancel_witness :
    (∃ p, canceledPendingFSM.transition = some p ∧ (p.ctx.err).isSome = true) ∧
    (canceledPendingFSM.Transition).1.Current = canceledPendingFSM.Current ∧
    (canceledPendingFSM.Transition).1.transition.isSome = true ∧
    (canceledPendingFSM.Transition).2.1 = none := by
  refine ⟨⟨⟨"end", ⟨"run", "start", "end", none, false, true⟩,
      Ctx.withCancel (Ctx.uncancel (Ctx.withCancel Ctx.background false)) true, true⟩,
      rfl, rfl⟩, ?_, ?_, ?_⟩
  · exact (Transition_after_cancel canceledPendingFSM _ rfl rfl).2.1
  · exact (Transition_after_cancel canceledPendingFSM _ rfl rfl).2.2
  · exact congrArg (fun t => t.2.1) (Transition_after_cancel canceledPendingFSM _ rfl rfl).1

/-- When the before phase completes without cancellation, its trace is the
specific slot (if registered) followed by the generic slot (if registered). -/
theorem beforeEventCallbacks_trace_ok (f : FSM) (ctx : Ctx) (e e1 : EventObj)
    (trB : List TraceItem)
    (h : beforeEventCallbacks f ctx e = (e1, none, trB)) :
    trB = specGen f ⟨e.event, CallbackKind.beforeEvent⟩ ⟨"", CallbackKind.beforeEvent⟩ := by
  unfold beforeEventCallbacks at h
  unfold specGen
  cases h1 : lookupAssoc f.callbacks ⟨e.event, CallbackKind.beforeEvent⟩ <;>
    cases h2 : lookupAssoc f.callbacks ⟨"", CallbackKind.beforeEvent⟩ <;>
      simp [h1, h2] at h ⊢ <;> (repeat' split at h) <;> simp_all

/-- When the leave phase completes and lets the transition proceed, its
trace is the specific slot followed by the generic slot. -/
theorem leaveStateCallbacks_trace_ok (f : FSM) (ctx : Ctx) (e e1 : EventObj)
    (trL : List TraceItem)
    (h : leaveStateCallbacks f ctx e = (e1, LeaveResult.ok, trL)) :
    trL = specGen f ⟨f.current, CallbackKind.leaveState⟩ ⟨"", CallbackKind.leaveState⟩ := by
  unfold leaveStateCallbacks at h
  unfold specGen
  cases h1 : lookupAssoc f.callbacks ⟨f.current, CallbackKind.leaveState⟩ <;>
    cases h2 : lookupAssoc f.callbacks ⟨"", CallbackKind.leaveState⟩ <;>
      simp [h1, h2] at h ⊢ <;> (repeat' split at h) <;> simp_all

/-- The enter phase always runs the specific slot (if registered) then the
generic slot (if registered). -/
theorem enterStateCallbacks_trace (f : FSM) (ctx : Ctx) (e : EventObj) :
    (enterStateCallbacks f ctx e).2 =
      specGen f ⟨f.current, CallbackKind.enterState⟩ ⟨"", CallbackKind.enterState⟩ := by
  unfold enterStateCallbacks specGen
  cases h1 : lookupAssoc f.callbacks ⟨f.current, CallbackKind.enterState⟩ <;>
    cases h2 : lookupAssoc f.callbacks ⟨"", CallbackKind.enterState⟩ <;> simp [h1, h2]

/-- The after phase always runs the specific slot (if registered) then the
generic slot (if registered). -/
theorem afterEventCallbacks_trace (f : FSM) (ctx : Ctx) (e : EventObj) :
    (afterEventCallbacks f ctx e).2 =
      specGen f ⟨e.event, CallbackKind.afterEvent⟩ ⟨"", CallbackKind.afterEvent⟩ := by
  unfold afterEventCallbacks specGen
  cases h1 : lookupAssoc f.callbacks ⟨e.event, CallbackKind.afterEvent⟩ <;>
    cases h2 : lookupAssoc f.callbacks ⟨"", CallbackKind.afterEvent⟩ <;> simp [h1, h2]

/-- The synchronous success path of Event(): with no pending transition, a
table hit, the no-transition branch not taken, the before phase not
cancelling, the leave phase neither cancelling nor deferring, and the
caller's context not already cancelled, Event commits the destination,
clears the pending marker, runs the enter then after phases on the committed
machine, and returns the (possibly callback-set) error from the shared event
record. -/
theorem Event_sync_path (f : FSM) (ctx0 : Ctx) (ev dst : String)
    (e1 e2 : EventObj) (trB trL : List TraceItem)
    (hp : f.transition = none)
    (hl : lookupAssoc f.transitions ⟨ev, f.current⟩ = some dst)
    (hskip : ¬(f.current = dst ∧ ¬f.processNoTransitionStates))
    (hb : beforeEventCallbacks f (Ctx.withCancel ctx0 false)
        ⟨ev, f.current, dst, none, false, false⟩ = (e1, none, trB))
    (hlv : leaveStateCallbacks f (Ctx.withCancel ctx0 false) e1 = (e2, LeaveResult.ok, trL))
    (hctx : ctx0.err = none) :
    ∃ e3 eF trE trA,
      enterStateCallbacks { f with current := dst, transition := none }
        (Ctx.withCancel ctx0 false) e2 = (e3, trE) ∧
      afterEventCallbacks { f with current := dst, transition := none }
        (Ctx.withCancel ctx0 false) e3 = (eF, trA) ∧
      f.Event ctx0 ev =
        ({ f with current := dst, transition := none }, eF.err.map GoError.plain,
          trB ++ trL ++ (TraceItem.commit dst :: (trE ++ trA))) := by
  refine ⟨(enterStateCallbacks { f with current := dst, transition := none }
      (Ctx.withCancel ctx0 false) e2).1,
    (afterEventCallbacks { f with current := dst, transition := none }
      (Ctx.withCancel ctx0 false)
      (enterStateCallbacks { f with current := dst, transition := none }
        (Ctx.withCancel ctx0 false) e2).1).1,
    (enterStateCallbacks { f with current := dst, transition := none }
      (Ctx.withCancel ctx0 false) e2).2,
    (afterEventCallbacks { f with current := dst, transition := none }
      (Ctx.withCancel ctx0 false)
      (enterStateCallbacks { f with current := dst, transition := none }
        (Ctx.withCancel ctx0 false) e2).1).2, rfl, rfl, ?_⟩
  simp only [FSM.Event, hp, Option.isSome_none, Bool.false_eq_true, if_false, hl,
    Bool.false_eq_true]
  rw [hb]
  simp only [hskip, if_false]
  rw [leaveStateCallbacks_transition_irrel, hlv]
  simp only [doTransition, Ctx.err, hctx]
  simp

/-- C7: on a successful Event()-driven transition the phases run in the
order before, leave, commit of the state, enter, after (read off the trace),
and within every phase the specific slot runs strictly before the generic
slot (each phase trace has the specGen shape). -/
theorem Event_phase_order (f : FSM) (ctx0 : Ctx) (ev dst : String)
    (e1 e2 : EventObj) (trB trL : List TraceItem)
    (hp : f.transition = none)
    (hl : lookupAssoc f.transitions ⟨ev, f.current⟩ = some dst)
    (hskip : ¬(f.current = dst ∧ ¬f.processNoTransitionStates))
    (hb : beforeEventCallbacks f (Ctx.withCancel ctx0 false)
        ⟨ev, f.current, dst, none, false, false⟩ = (e1, none, trB))
    (hlv : leaveStateCallbacks f (Ctx.withCancel ctx0 false) e1 = (e2, LeaveResult.ok, trL))
    (hctx : ctx0.err = none) :
    ∃ e3 eF trE trA,
      enterStateCallbacks { f with current := dst, transition := none }
        (Ctx.withCancel ctx0 false) e2 = (e3, trE) ∧
      afterEventCallbacks { f with current := dst, transition := none }
        (Ctx.withCancel ctx0 false) e3 = (eF, trA) ∧
      f.Event ctx0 ev =
        ({ f with current := dst, transition := none }, eF.err.map GoError.plain,
          trB ++ trL ++ (TraceItem.commit dst :: (trE ++ trA))) ∧
      trB = specGen f ⟨ev, CallbackKind.beforeEvent⟩ ⟨"", CallbackKind.beforeEvent⟩ ∧
      trL = specGen f ⟨f.current, CallbackKind.leaveState⟩ ⟨"", CallbackKind.leaveState⟩ ∧
      trE = specGen f ⟨dst, CallbackKind.enterState⟩ ⟨"", CallbackKind.enterState⟩ ∧
      trA = specGen f ⟨e3.event, CallbackKind.afterEvent⟩ ⟨"", CallbackKind.afterEvent⟩ := by
  obtain ⟨e3, eF, trE, trA, hE, hA, hEv⟩ :=
    Event_sync_path f ctx0 ev dst e1 e2 trB trL hp hl hskip hb hlv hctx
  refine ⟨e3, eF, trE, trA, hE, hA, hEv, ?_, ?_, ?_, ?_⟩
  · exact beforeEventCallbacks_trace_ok f _ _ e1 trB hb
  · exact leaveStateCallbacks_trace_ok f _ e1 e2 trL hlv
  · have := enterStateCallbacks_trace { f with current := dst, transition := none }
      (Ctx.withCancel ctx0 false) e2
    rw [hE] at this
    exact this
  · have := afterEventCallbacks_trace { f with current := dst, transition := none }
      (Ctx.withCancel ctx0 false) e3
    rw [hA] at this
    exact this

/-- C1: with a legal transition to a different destination whose leave phase
marks the transition asynchronous, Event() returns AsyncError carrying the
decoupled context, Current() is still the source state and the transition to
the destination is left pending; the subsequent Transition() call returns
nil, after which Current() is the staged destination, the pending marker is
cleared and the enter then after callbacks have run (they are the trace of
the completion). -/
theorem Event_async_defers_until_Transition (f : FSM) (ctx0 : Ctx) (ev dst : String)
    (e1 e2 : EventObj) (aerr : Option Err) (trB trL : List TraceItem)
    (hp : f.transition = none)
    (hl : lookupAssoc f.transitions ⟨ev, f.current⟩ = some dst)
    (hd : dst ≠ f.current)
    (hb : beforeEventCallbacks f (Ctx.withCancel ctx0 false)
        ⟨ev, f.current, dst, none, false, false⟩ = (e1, none, trB))
    (hlv : leaveStateCallbacks f (Ctx.withCancel ctx0 false) e1 =
        (e2, LeaveResult.asyncStarted aerr, trL)) :
    ∃ fA,
      f.Event ctx0 ev =
        (fA, some (GoError.asyncError aerr (some (uncancelContext (Ctx.withCancel ctx0 false)))),
          trB ++ trL) ∧
      fA.Current = f.Current ∧
      fA.transition = some ⟨dst, e2, uncancelContext (Ctx.withCancel ctx0 false), true⟩ ∧
      ∃ f1 e3 eF trE trA,
        fA.Transition = (f1, none, TraceItem.commit dst :: (trE ++ trA)) ∧
        f1.Current = dst ∧
        f1.transition = none ∧
        enterStateCallbacks f1 (uncancelContext (Ctx.withCancel ctx0 false)) e2 = (e3, trE) ∧
        afterEventCallbacks f1 (uncancelContext (Ctx.withCancel ctx0 false)) e3 = (eF, trA) := by
  refine ⟨{ f with transition := some (Pending.mk dst e2 (uncancelContext (Ctx.withCancel ctx0 false)) true) }, ?_, rfl, rfl, ?_⟩
  · simp only [FSM.Event, hp, Option.isSome_none, Bool.false_eq_true, if_false, hl]
    rw [hb]
    have hskip : ¬(f.current = dst ∧ ¬f.processNoTransitionStates) := by
      rintro ⟨h1, _⟩; exact hd h1.symm
    simp only [hskip, if_false]
    rw [leaveStateCallbacks_transition_irrel, hlv]
  · refine ⟨{ f with current := dst, transition := none },
      (enterStateCallbacks { f with current := dst, transition := none }
        (uncancelContext (Ctx.withCancel ctx0 false)) e2).1,
      (afterEventCallbacks { f with current := dst, transition := none }
        (uncancelContext (Ctx.withCancel ctx0 false))
        (enterStateCallbacks { f with current := dst, transition := none }
          (uncancelContext (Ctx.withCancel ctx0 false)) e2).1).1,
      (enterStateCallbacks { f with current := dst, transition := none }
        (uncancelContext (Ctx.withCancel ctx0 false)) e2).2,
      (afterEventCallbacks { f with current := dst, transition := none }
        (uncancelContext (Ctx.withCancel ctx0 false))
        (enterStateCallbacks { f with current := dst, transition := none }
          (uncancelContext (Ctx.withCancel ctx0 false)) e2).1).2,
      ?_, rfl, rfl, rfl, rfl⟩
    simp [FSM.Transition, doTransition, uncancelContext, Ctx.err]

/-- C2: if the before phase cancels, or the before phase passes and the
leave phase cancels, Event() returns CanceledError carrying the callback
error, and the machine is returned exactly as it was: same current state and
no staged pending transition. -/
theorem Event_cancel_unchanged (f : FSM) (ctx0 : Ctx) (ev dst : String)
    (cerr : Option Err)
    (hp : f.transition = none)
    (hl : lookupAssoc f.transitions ⟨ev, f.current⟩ = some dst)
    (hc : (∃ e1 trB, beforeEventCallbacks f (Ctx.withCancel ctx0 false)
            ⟨ev, f.current, dst, none, false, false⟩ = (e1, some cerr, trB)) ∨
          (¬(f.current = dst ∧ ¬f.processNoTransitionStates) ∧
            ∃ e1 e2 trB trL,
              beforeEventCallbacks f (Ctx.withCancel ctx0 false)
                ⟨ev, f.current, dst, none, false, false⟩ = (e1, none, trB) ∧
              leaveStateCallbacks f (Ctx.withCancel ctx0 false) e1 =
                (e2, LeaveResult.canceled cerr, trL))) :
    ∃ tr, f.Event ctx0 ev = (f, some (GoError.canceledError cerr), tr) := by
  rcases hc with ⟨e1, trB, hb⟩ | ⟨hskip, e1, e2, trB, trL, hb, hlv⟩
  · refine ⟨trB, ?_⟩
    simp only [FSM.Event, hp, Option.isSome_none, Bool.false_eq_true, if_false, hl]
    rw [hb]
  · refine ⟨trB ++ trL, ?_⟩
    simp only [FSM.Event, hp, Option.isSome_none, Bool.false_eq_true, if_false, hl]
    rw [hb]
    simp only [hskip, if_false]
    rw [leaveStateCallbacks_transition_irrel, hlv]
    rw [← hp]

/-- A machine with a self-loop entry run: start to start and the
processNoTransitionStates flag enabled. -/
def selfLoopFlagFSM : FSM :=
  { current := "start"
    transitions := [(⟨"run", "start"⟩, "start")]
    callbacks := []
    transition := none
    processNoTransitionStates := true }

/-- C6 counterexample: on a machine with SetProcessNoTransitionStates(true)
and a table entry whose destination equals the current state, Event()
returns nil rather than NoTransitionError, and its trace shows the full
transition protocol ran (the state commit happened), so the claim quantified
over every machine is false. -/
theorem Event_noTransition_counterexample :
    (selfLoopFlagFSM.Event Ctx.background "run").2.1 = none ∧
    (¬ ∃ er, (selfLoopFlagFSM.Event Ctx.background "run").2.1 =
        some (GoError.noTransitionError er)) ∧
    (selfLoopFlagFSM.Event Ctx.background "run").2.2 = [TraceItem.commit "start"] := by
  refine ⟨rfl, ?_, rfl⟩
  rintro ⟨er, h⟩
  have h0 : (selfLoopFlagFSM.Event Ctx.background "run").2.1 = none := rfl
  rw [h0] at h
  exact Option.noConfusion h

/-- C6 amended: in the default configuration (processNoTransitionStates not
enabled) and when the before phase does not cancel, an Event() whose table
entry maps back to the current state runs the after-phase callbacks
(specific slot then generic slot), returns NoTransitionError carrying any
callback-set error, and leaves the machine, and so Current(), unchanged. -/
theorem Event_noTransition_default (f : FSM) (ctx0 : Ctx) (ev dst : String)
    (e1 : EventObj) (trB : List TraceItem)
    (hp : f.transition = none)
    (hl : lookupAssoc f.transitions ⟨ev, f.current⟩ = some dst)
    (heq : f.current = dst)
    (hflag : f.processNoTransitionStates = false)
    (hb : beforeEventCallbacks f (Ctx.withCancel ctx0 false)
        ⟨ev, f.current, dst, none, false, false⟩ = (e1, none, trB)) :
    ∃ e2 trA,
      afterEventCallbacks f (Ctx.withCancel ctx0 false) e1 = (e2, trA) ∧
      f.Event ctx0 ev = (f, some (GoError.noTransitionError e2.err), trB ++ trA) ∧
      trA = specGen f ⟨e1.event, CallbackKind.afterEvent⟩ ⟨"", CallbackKind.afterEvent⟩ := by
  refine ⟨(afterEventCallbacks f (Ctx.withCancel ctx0 false) e1).1,
    (afterEventCallbacks f (Ctx.withCancel ctx0 false) e1).2, rfl, ?_,
    afterEventCallbacks_trace f (Ctx.withCancel ctx0 false) e1⟩
  simp only [FSM.Event, hp, Option.isSome_none, Bool.false_eq_true, if_false, hl]
  rw [hb]
  simp [heq, hflag]

/-- C8: while an async transition is pending, any Event() call returns
InTransitionError with the machine untouched and no callback run; once the
pending transition is completed by Transition() (its decoupled context not
cancelled), the machine sits in the staged destination with the marker
cleared, and from there any event legal in the new state whose phases pass
runs the full synchronous protocol to its own destination. -/
theorem Event_pending_inTransition_then_succeeds (f : FSM) (ctx0 : Ctx) (ev : String)
    (p : Pending) (hp : f.transition = some p) :
    f.Event ctx0 ev = (f, some (GoError.inTransitionError ev), []) ∧
    (p.ctx.err = none →
      ∃ f1 trT,
        f.Transition = (f1, none, trT) ∧
        f1.Current = p.dst ∧
        f1.transition = none ∧
        f1.transitions = f.transitions ∧
        f1.callbacks = f.callbacks ∧
        ∀ (ctx2 : Ctx) (ev2 dst2 : String) (e1 e2 : EventObj) (trB trL : List TraceItem),
          lookupAssoc f1.transitions ⟨ev2, f1.current⟩ = some dst2 →
          ¬(f1.current = dst2 ∧ ¬f1.processNoTransitionStates) →
          beforeEventCallbacks f1 (Ctx.withCancel ctx2 false)
            ⟨ev2, f1.current, dst2, none, false, false⟩ = (e1, none, trB) →
          leaveStateCallbacks f1 (Ctx.withCancel ctx2 false) e1 = (e2, LeaveResult.ok, trL) →
          ctx2.err = none →
          ∃ e3 eF trE trA,
            enterStateCallbacks { f1 with current := dst2, transition := none }
              (Ctx.withCancel ctx2 false) e2 = (e3, trE) ∧
            afterEventCallbacks { f1 with current := dst2, transition := none }
              (Ctx.withCancel ctx2 false) e3 = (eF, trA) ∧
            f1.Event ctx2 ev2 =
              ({ f1 with current := dst2, transition := none }, eF.err.map GoError.plain,
                trB ++ trL ++ (TraceItem.commit dst2 :: (trE ++ trA)))) := by
  constructor
  · simp [FSM.Event, hp]
  · intro hce
    have hcs : (p.ctx.err).isSome = false := by rw [hce]; rfl
    refine ⟨{ f with current := p.dst, transition := none },
      TraceItem.commit p.dst ::
        ((enterStateCallbacks { f with current := p.dst, transition := none } p.ctx p.e).2 ++
          (afterEventCallbacks { f with current := p.dst, transition := none } p.ctx
            (enterStateCallbacks { f with current := p.dst, transition := none } p.ctx p.e).1).2),
      ?_, rfl, rfl, rfl, rfl, ?_⟩
    · simp [FSM.Transition, doTransition, hp, hcs]
    · intro ctx2 ev2 dst2 e1 e2 trB trL hl2 hskip2 hb2 hlv2 hc2
      exact Event_sync_path _ ctx2 ev2 dst2 e1 e2 trB trL rfl hl2 hskip2 hb2 hlv2 hc2

/-- C10: with processNoTransitionStates enabled, an Event() whose table
entry maps back to the current state does not take the NoTransitionError
path: it stages and commits the full transition protocol (leave, commit,
enter, after in the trace) and returns the callback-set error or nil,
exactly as for a state-changing transition; Current() ends up unchanged
because the committed destination is the current state itself. -/
theorem Event_processNoTransitionStates_full (f : FSM) (ctx0 : Ctx) (ev dst : String)
    (e1 e2 : EventObj) (trB trL : List TraceItem)
    (hp : f.transition = none)
    (hl : lookupAssoc f.transitions ⟨ev, f.current⟩ = some dst)
    (heq : f.current = dst)
    (hflag : f.processNoTransitionStates = true)
    (hb : beforeEventCallbacks f (Ctx.withCancel ctx0 false)
        ⟨ev, f.current, dst, none, false, false⟩ = (e1, none, trB))
    (hlv : leaveStateCallbacks f (Ctx.withCancel ctx0 false) e1 = (e2, LeaveResult.ok, trL))
    (hctx : ctx0.err = none) :
    ∃ e3 eF trE trA,
      enterStateCallbacks { f with current := dst, transition := none }
        (Ctx.withCancel ctx0 false) e2 = (e3, trE) ∧
      afterEventCallbacks { f with current := dst, transition := none }
        (Ctx.withCancel ctx0 false) e3 = (eF, trA) ∧
      f.Event ctx0 ev =
        ({ f with current := dst, transition := none }, eF.err.map GoError.plain,
          trB ++ trL ++ (TraceItem.commit dst :: (trE ++ trA))) ∧
      (∀ er, eF.err.map GoError.plain ≠ some (GoError.noTransitionError er)) ∧
      ({ f with current := dst, transition := none } : FSM).Current = f.Current := by
  have hskip : ¬(f.current = dst ∧ ¬f.processNoTransitionStates) := by
    rintro ⟨_, hn⟩; exact hn hflag
  obtain ⟨e3, eF, trE, trA, hE, hA, hEv⟩ :=
    Event_sync_path f ctx0 ev dst e1 e2 trB trL hp hl hskip hb hlv hctx
  refine ⟨e3, eF, trE, trA, hE, hA, hEv, ?_, ?_⟩
  · intro er h
    cases he : eF.err <;> rw [he] at h <;> simp at h
  · show dst = f.Current
    rw [FSM.Current, heq]


/-- A malformed binding never passes Callback.validate. -/
theorem validate_some_of_malformed (c : V2.Callback) (h : malformedBinding c) :
    ∃ msg, c.validate = some msg := by
  cases c with
  | mk w ev st =>
    rcases h with ⟨hw, hs⟩ | ⟨hw, he⟩ | ⟨hw, ht⟩
    · rcases hw with hw | hw <;> subst hw <;>
        by_cases he2 : ev = "" <;>
          simp_all [V2.Callback.validate, V2.BeforeEvent, V2.AfterEvent, V2.BeforeAllEvents,
            V2.AfterAllEvents, V2.EnterState, V2.LeaveState, V2.EnterAllStates,
            V2.LeaveAllStates]
    · rcases hw with hw | hw <;> subst hw <;>
        by_cases hs2 : st = "" <;>
          simp_all [V2.Callback.validate, V2.BeforeEvent, V2.AfterEvent, V2.BeforeAllEvents,
            V2.AfterAllEvents, V2.EnterState, V2.LeaveState, V2.EnterAllStates,
            V2.LeaveAllStates]
    · rcases hw with hw | hw | hw | hw <;> subst hw <;> rcases ht with he | hs <;>
        by_cases he2 : ev = "" <;> by_cases hs2 : st = "" <;>
          simp_all [V2.Callback.validate, V2.BeforeEvent, V2.AfterEvent, V2.BeforeAllEvents,
            V2.AfterAllEvents, V2.EnterState, V2.LeaveState, V2.EnterAllStates,
            V2.LeaveAllStates]

/-- If some binding of the list fails validation, the whole list fails
validation (with the first reported message). -/
theorem callbacksValidate_some_of_mem (cbs : List V2.Callback) (c : V2.Callback)
    (hmem : c ∈ cbs) (h : ∃ m, c.validate = some m) :
    ∃ msg, V2.callbacksValidate cbs = some msg := by
  induction cbs with
  | nil => cases hmem
  | cons a rest ih =>
    unfold V2.callbacksValidate
    cases ha : a.validate with
    | some m => exact ⟨m, rfl⟩
    | none =>
      rcases List.mem_cons.mp hmem with hca | hcr
      · obtain ⟨m, hm⟩ := h
        rw [hca] at hm
        rw [hm] at ha
        exact Option.noConfusion ha
      · simpa using ih hcr

/-- C5: construction through the generic constructor fails whenever any
callback binding in the list is malformed: a state target on an event-phase
binding, an event target on a state-phase binding, or any target on an
all-events/all-states category. -/
theorem New_rejects_malformed (initial : String) (ts : List EventDesc)
    (cbs : List V2.Callback) (c : V2.Callback)
    (hmem : c ∈ cbs) (hmal : malformedBinding c) :
    ∃ msg, V2.New initial ts cbs = Except.error msg := by
  obtain ⟨msg, hm⟩ := callbacksValidate_some_of_mem cbs c hmem
    (validate_some_of_malformed c hmal)
  refine ⟨msg, ?_⟩
  unfold V2.New
  rw [hm]

/-- A before-event binding that also names a state: malformed in the first
of the three shapes. -/
def badEventPhaseBinding : V2.Callback := ⟨V2.BeforeEvent, "open", "closed"⟩

/-- A leave-state binding that also names an event: malformed in the second
shape. -/
def badStatePhaseBinding : V2.Callback := ⟨V2.LeaveState, "open", "closed"⟩

/-- An enter-all-states binding with a state target: malformed in the third
shape. -/
def badAllStatesBinding : V2.Callback := ⟨V2.EnterAllStates, "", "closed"⟩

/-- Witness for C5: three concrete malformed bindings, one of each of the
claim's shapes, each rejected by construction. -/
theorem New_rejects_malformed_witness :
    (badEventPhaseBinding ∈ [badEventPhaseBinding] ∧
      malformedBinding badEventPhaseBinding ∧
      ∃ msg, V2.New "closed" [] [badEventPhaseBinding] = Except.error msg) ∧
    (badStatePhaseBinding ∈ [badStatePhaseBinding] ∧
      malformedBinding badStatePhaseBinding ∧
      ∃ msg, V2.New "closed" [] [badStatePhaseBinding] = Except.error msg) ∧
    (badAllStatesBinding ∈ [badAllStatesBinding] ∧
      malformedBinding badAllStatesBinding ∧
      ∃ msg, V2.New "closed" [] [badAllStatesBinding] = Except.error msg) := by
  have hmal1 : malformedBinding badEventPhaseBinding := Or.inl ⟨Or.inl rfl, by decide⟩
  have hmal2 : malformedBinding badStatePhaseBinding := Or.inr (Or.inl ⟨Or.inr rfl, by decide⟩)
  have hmal3 : malformedBinding badAllStatesBinding :=
    Or.inr (Or.inr ⟨Or.inr (Or.inr (Or.inl rfl)), Or.inr (by decide)⟩)
  refine ⟨⟨List.mem_singleton.mpr rfl, hmal1, ?_⟩,
    ⟨List.mem_singleton.mpr rfl, hmal2, ?_⟩,
    ⟨List.mem_singleton.mpr rfl, hmal3, ?_⟩⟩
  · exact New_rejects_malformed "closed" [] [badEventPhaseBinding] badEventPhaseBinding
      (List.mem_singleton.mpr rfl) hmal1
  · exact New_rejects_malformed "closed" [] [badStatePhaseBinding] badStatePhaseBinding
      (List.mem_singleton.mpr rfl) hmal2
  · exact New_rejects_malformed "closed" [] [badAllStatesBinding] badAllStatesBinding
      (List.mem_singleton.mpr rfl) hmal3

/-- The freshly built event record of an Event(run) call from state start
towards end. -/
def eRun0 : EventObj := ⟨"run", "start", "end", none, false, false⟩

/-- The same record after a leave callback called Async. -/
def eRunAsync : EventObj := ⟨"run", "start", "end", none, false, true⟩

/-- Witness for C1 at the concrete test scenario: leave of start calls
Async, Event(run) returns AsyncError with the decoupled context and leaves
Current() at start, and Transition() then commits end. -/
theorem Event_async_defers_until_Transition_witness :
    asyncLeaveFSM.transition = none ∧
    lookupAssoc asyncLeaveFSM.transitions ⟨"run", asyncLeaveFSM.current⟩ = some "end" ∧
    "end" ≠ asyncLeaveFSM.current ∧
    beforeEventCallbacks asyncLeaveFSM (Ctx.withCancel Ctx.background false)
      ⟨"run", asyncLeaveFSM.current, "end", none, false, false⟩ = (eRun0, none, []) ∧
    leaveStateCallbacks asyncLeaveFSM (Ctx.withCancel Ctx.background false) eRun0 =
      (eRunAsync, LeaveResult.asyncStarted none,
        [TraceItem.cb ⟨"start", CallbackKind.leaveState⟩]) ∧
    (∃ fA,
      asyncLeaveFSM.Event Ctx.background "run" =
        (fA, some (GoError.asyncError none
          (some (uncancelContext (Ctx.withCancel Ctx.background false)))),
          [] ++ [TraceItem.cb ⟨"start", CallbackKind.leaveState⟩]) ∧
      fA.Current = asyncLeaveFSM.Current ∧
      fA.transition = some ⟨"end", eRunAsync,
        uncancelContext (Ctx.withCancel Ctx.background false), true⟩ ∧
      ∃ f1 e3 eF trE trA,
        fA.Transition = (f1, none, TraceItem.commit "end" :: (trE ++ trA)) ∧
        f1.Current = "end" ∧
        f1.transition = none ∧
        enterStateCallbacks f1 (uncancelContext (Ctx.withCancel Ctx.background false))
          eRunAsync = (e3, trE) ∧
        afterEventCallbacks f1 (uncancelContext (Ctx.withCancel Ctx.background false))
          e3 = (eF, trA)) := by
  refine ⟨rfl, rfl, by decide, rfl, rfl, ?_⟩
  exact Event_async_defers_until_Transition asyncLeaveFSM Ctx.background "run" "end"
    eRun0 eRunAsync none [] [TraceItem.cb ⟨"start", CallbackKind.leaveState⟩]
    rfl rfl (by decide) rfl rfl

/-- The run and reset machine with a before callback on run that cancels the
transition with a user error. -/
def cancelBeforeFSM : FSM :=
  { runResetFSM with
    callbacks := [(⟨"run", CallbackKind.beforeEvent⟩,
      fun _ e => e.cancel (some (Err.user "nope")))] }

/-- Witness for C2 at a concrete machine whose before-run callback cancels
with an error: Event(run) returns CanceledError with that error and the
machine is returned unchanged. -/
theorem Event_cancel_unchanged_witness :
    cancelBeforeFSM.transition = none ∧
    lookupAssoc cancelBeforeFSM.transitions ⟨"run", cancelBeforeFSM.current⟩ = some "end" ∧
    beforeEventCallbacks cancelBeforeFSM (Ctx.withCancel Ctx.background false)
      ⟨"run", cancelBeforeFSM.current, "end", none, false, false⟩ =
      (⟨"run", "start", "end", some (Err.user "nope"), true, false⟩,
        some (some (Err.user "nope")), [TraceItem.cb ⟨"run", CallbackKind.beforeEvent⟩]) ∧
    ∃ tr, cancelBeforeFSM.Event Ctx.background "run" =
      (cancelBeforeFSM, some (GoError.canceledError (some (Err.user "nope"))), tr) := by
  refine ⟨rfl, rfl, rfl, ?_⟩
  exact Event_cancel_unchanged cancelBeforeFSM Ctx.background "run" "end"
    (some (Err.user "nope")) rfl rfl
    (Or.inl ⟨⟨"run", "start", "end", some (Err.user "nope"), true, false⟩,
      [TraceItem.cb ⟨"run", CallbackKind.beforeEvent⟩], rfl⟩)

/-- The self-loop machine in the default configuration. -/
def selfLoopFSM : FSM := { selfLoopFlagFSM with processNoTransitionStates := false }

/-- Witness for the amended C6 at the concrete self-loop machine in the
default configuration: Event(run) reports NoTransitionError and leaves the
machine untouched. -/
theorem Event_noTransition_default_witness :
    selfLoopFSM.transition = none ∧
    lookupAssoc selfLoopFSM.transitions ⟨"run", selfLoopFSM.current⟩ = some "start" ∧
    selfLoopFSM.current = "start" ∧
    selfLoopFSM.processNoTransitionStates = false ∧
    beforeEventCallbacks selfLoopFSM (Ctx.withCancel Ctx.background false)
      ⟨"run", selfLoopFSM.current, "start", none, false, false⟩ =
      (⟨"run", "start", "start", none, false, false⟩, none, []) ∧
    ∃ e2 trA,
      afterEventCallbacks selfLoopFSM (Ctx.withCancel Ctx.background false)
        ⟨"run", "start", "start", none, false, false⟩ = (e2, trA) ∧
      selfLoopFSM.Event Ctx.background "run" =
        (selfLoopFSM, some (GoError.noTransitionError e2.err), [] ++ trA) ∧
      trA = specGen selfLoopFSM ⟨"run", CallbackKind.afterEvent⟩
        ⟨"", CallbackKind.afterEvent⟩ := by
  refine ⟨rfl, rfl, rfl, rfl, rfl, ?_⟩
  exact Event_noTransition_default selfLoopFSM Ctx.background "run" "start"
    ⟨"run", "start", "start", none, false, false⟩ [] rfl rfl rfl rfl rfl

/-- A callback that does nothing to the event record. -/
def idCallback : Callback := fun _ e => e

/-- The run and reset machine with a specific and a generic callback in all
four phases, all of them inert. -/
def fullCallbackFSM : FSM :=
  { runResetFSM with callbacks :=
      [(⟨"run", CallbackKind.beforeEvent⟩, idCallback),
       (⟨"", CallbackKind.beforeEvent⟩, idCallback),
       (⟨"start", CallbackKind.leaveState⟩, idCallback),
       (⟨"", CallbackKind.leaveState⟩, idCallback),
       (⟨"end", CallbackKind.enterState⟩, idCallback),
       (⟨"", CallbackKind.enterState⟩, idCallback),
       (⟨"run", CallbackKind.afterEvent⟩, idCallback),
       (⟨"", CallbackKind.afterEvent⟩, idCallback)] }

/-- Witness for C7 at a machine with both a specific and a generic callback
in every phase: the Event(run) trace is before-specific, before-generic,
leave-specific, leave-generic, commit, enter-specific, enter-generic,
after-specific, after-generic. -/
theorem Event_phase_order_witness :
    fullCallbackFSM.transition = none ∧
    lookupAssoc fullCallbackFSM.transitions ⟨"run", fullCallbackFSM.current⟩ = some "end" ∧
    ¬(fullCallbackFSM.current = "end" ∧ ¬fullCallbackFSM.processNoTransitionStates) ∧
    beforeEventCallbacks fullCallbackFSM (Ctx.withCancel Ctx.background false)
      ⟨"run", fullCallbackFSM.current, "end", none, false, false⟩ =
      (eRun0, none, [TraceItem.cb ⟨"run", CallbackKind.beforeEvent⟩,
        TraceItem.cb ⟨"", CallbackKind.beforeEvent⟩]) ∧
    leaveStateCallbacks fullCallbackFSM (Ctx.withCancel Ctx.background false) eRun0 =
      (eRun0, LeaveResult.ok, [TraceItem.cb ⟨"start", CallbackKind.leaveState⟩,
        TraceItem.cb ⟨"", CallbackKind.leaveState⟩]) ∧
    Ctx.background.err = none ∧
    ∃ e3 eF trE trA,
      enterStateCallbacks { fullCallbackFSM with current := "end", transition := none }
        (Ctx.withCancel Ctx.background false) eRun0 = (e3, trE) ∧
      afterEventCallbacks { fullCallbackFSM with current := "end", transition := none }
        (Ctx.withCancel Ctx.background false) e3 = (eF, trA) ∧
      fullCallbackFSM.Event Ctx.background "run" =
        ({ fullCallbackFSM with current := "end", transition := none },
          eF.err.map GoError.plain,
          [TraceItem.cb ⟨"run", CallbackKind.beforeEvent⟩,
            TraceItem.cb ⟨"", CallbackKind.beforeEvent⟩] ++
          [TraceItem.cb ⟨"start", CallbackKind.leaveState⟩,
            TraceItem.cb ⟨"", CallbackKind.leaveState⟩] ++
          (TraceItem.commit "end" :: (trE ++ trA))) ∧
      [TraceItem.cb ⟨"run", CallbackKind.beforeEvent⟩,
        TraceItem.cb ⟨"", CallbackKind.beforeEvent⟩] =
        specGen fullCallbackFSM ⟨"run", CallbackKind.beforeEvent⟩
          ⟨"", CallbackKind.beforeEvent⟩ ∧
      [TraceItem.cb ⟨"start", CallbackKind.leaveState⟩,
        TraceItem.cb ⟨"", CallbackKind.leaveState⟩] =
        specGen fullCallbackFSM ⟨fullCallbackFSM.current, CallbackKind.leaveState⟩
          ⟨"", CallbackKind.leaveState⟩ ∧
      trE = specGen fullCallbackFSM ⟨"end", CallbackKind.enterState⟩
        ⟨"", CallbackKind.enterState⟩ ∧
      trA = specGen fullCallbackFSM ⟨e3.event, CallbackKind.afterEvent⟩
        ⟨"", CallbackKind.afterEvent⟩ := by
  refine ⟨rfl, rfl, by decide, rfl, rfl, rfl, ?_⟩
  exact Event_phase_order fullCallbackFSM Ctx.background "run" "end" eRun0 eRun0
    [TraceItem.cb ⟨"run", CallbackKind.beforeEvent⟩,
      TraceItem.cb ⟨"", CallbackKind.beforeEvent⟩]
    [TraceItem.cb ⟨"start", CallbackKind.leaveState⟩,
      TraceItem.cb ⟨"", CallbackKind.leaveState⟩]
    rfl rfl (by decide) rfl rfl rfl

/-- The machine left behind by the async Event(run) of the test scenario:
the transition to end is pending with the decoupled, uncancelled context. -/
def pendingAsyncFSM : FSM := (asyncLeaveFSM.Event Ctx.background "run").1

/-- The concrete pending transition staged inside pendingAsyncFSM. -/
def pendingRun : Pending :=
  ⟨"end", eRunAsync, uncancelContext (Ctx.withCancel Ctx.background false), true⟩

/-- Witness for C8 at the concrete scenario: while the run transition is
pending, Event(reset) returns InTransitionError and changes nothing; after
Transition() commits end, the machine can dispatch events again. -/
theorem Event_pending_inTransition_then_succeeds_witness :
    pendingAsyncFSM.transition = some pendingRun ∧
    pendingRun.ctx.err = none ∧
    pendingAsyncFSM.Event Ctx.background "reset" =
      (pendingAsyncFSM, some (GoError.inTransitionError "reset"), []) ∧
    ∃ f1 trT,
      pendingAsyncFSM.Transition = (f1, none, trT) ∧
      f1.Current = "end" ∧
      f1.transition = none ∧
      f1.transitions = pendingAsyncFSM.transitions ∧
      f1.callbacks = pendingAsyncFSM.callbacks := by
  have h := Event_pending_inTransition_then_succeeds pendingAsyncFSM Ctx.background
    "reset" pendingRun rfl
  obtain ⟨f1, trT, h1, h2, h3, h4, h5, _⟩ := h.2 rfl
  exact ⟨rfl, rfl, h.1, f1, trT, h1, h2, h3, h4, h5⟩

/-- Witness for C10 at the self-loop machine with the flag enabled: the
Event(run) call commits the full transition protocol (the commit appears in
the trace), returns nil since no callback set an error, and Current() is
still start. -/
theorem Event_processNoTransitionStates_full_witness :
    selfLoopFlagFSM.transition = none ∧
    lookupAssoc selfLoopFlagFSM.transitions ⟨"run", selfLoopFlagFSM.current⟩ = some "start" ∧
    selfLoopFlagFSM.current = "start" ∧
    selfLoopFlagFSM.processNoTransitionStates = true ∧
    beforeEventCallbacks selfLoopFlagFSM (Ctx.withCancel Ctx.background false)
      ⟨"run", selfLoopFlagFSM.current, "start", none, false, false⟩ =
      (⟨"run", "start", "start", none, false, false⟩, none, []) ∧
    leaveStateCallbacks selfLoopFlagFSM (Ctx.withCancel Ctx.background false)
      ⟨"run", "start", "start", none, false, false⟩ =
      (⟨"run", "start", "start", none, false, false⟩, LeaveResult.ok, []) ∧
    Ctx.background.err = none ∧
    ∃ e3 eF trE trA,
      enterStateCallbacks { selfLoopFlagFSM with current := "start", transition := none }
        (Ctx.withCancel Ctx.background false)
        ⟨"run", "start", "start", none, false, false⟩ = (e3, trE) ∧
      afterEventCallbacks { selfLoopFlagFSM with current := "start", transition := none }
        (Ctx.withCancel Ctx.background false) e3 = (eF, trA) ∧
      selfLoopFlagFSM.Event Ctx.background "run" =
        ({ selfLoopFlagFSM with current := "start", transition := none },
          eF.err.map GoError.plain, [] ++ [] ++ (TraceItem.commit "start" :: (trE ++ trA))) ∧
      (∀ er, eF.err.map GoError.plain ≠ some (GoError.noTransitionError er)) ∧
      ({ selfLoopFlagFSM with current := "start", transition := none } : FSM).Current =
        selfLoopFlagFSM.Current := by
  refine ⟨rfl, rfl, rfl, rfl, rfl, rfl, rfl, ?_⟩
  exact Event_processNoTransitionStates_full selfLoopFlagFSM Ctx.background "run" "start"
    ⟨"run", "start", "start", none, false, false⟩
    ⟨"run", "start", "start", none, false, false⟩ [] [] rfl rfl rfl rfl rfl rfl rfl
